import Mathlib

/-!
Verification of the tree-set containers and the vector of the
typescript-stl repository.

The associative containers (TreeSet, TreeMultiSet) keep an element list
(data_) indexed by a red-black tree (tree_).  The tree object
(base.AtomicTree) and the base classes (UniqueSet, MultiSet, the
intrusive List) are not part of the repository snapshot, so their
operations are modelled from the specification, acting on the in-order
walk of the tree.  For the search and insert claims the container is
represented by its element list: along insert-only histories the value
sequence of the in-order walk coincides with the value sequence of the
list (spec section 8, invariant 1), and insert_by_val, the bound
queries and count observe only positions and values, so this
representation is faithful at the value level.  A second model
(SetCells) keeps the list and the tree walk separately, with cell
identities, for the cross-structure invariant claim about erase.

All elements are specialised to Int; std.less and std.equal_to on
numbers are the primitive order and equality of the host language.
-/

/-- Default comparator std.less specialised to numbers. -/
def stdLess (a b : Int) : Bool := a < b

/-- Default strong equality std.equal_to specialised to numbers. -/
def stdEq (a b : Int) : Bool := a == b

/-- A key comparator, as stored in the tree index. -/
abbrev Cmp := Int → Int → Bool

/-- A comparator ordering integers by absolute value.  Its derived
equivalence identifies n and -n while std.equal_to separates them. -/
def cmpAbs (a b : Int) : Bool := a.natAbs < b.natAbs

/-- Modelled from the spec: AtomicTree.find, whose source is not in the
snapshot.  Spec 4.3: the node with smallest key not less than k, or
null if k exceeds the maximum key.  On the in-order walk this is the
index of the first element e with cmp e k = false. -/
def treeFind (cmp : Cmp) (s : List Int) (val : Int) : Option Nat :=
  s.findIdx? (fun e => !(cmp e val))

/-- Modelled from the spec: AtomicTree.lower_bound, the iterator to the
smallest key not less than k; end (the list length) if none. -/
def treeLowerBound (cmp : Cmp) (s : List Int) (val : Int) : Nat :=
  (s.takeWhile (fun e => cmp e val)).length

/-- Modelled from the spec: AtomicTree.upper_bound, the iterator to the
smallest key strictly greater than k; end if none. -/
def treeUpperBound (cmp : Cmp) (s : List Int) (val : Int) : Nat :=
  (s.takeWhile (fun e => !(cmp val e))).length

/-- Modelled from the spec: AtomicTree.equal_range, the pair of the
tree lower bound and the tree upper bound. -/
def treeEqualRange (cmp : Cmp) (s : List Int) (val : Int) : Nat × Nat :=
  (treeLowerBound cmp s val, treeUpperBound cmp s val)

/-- Modelled from the spec: insertion before a position of the
intrusive element list, positions taken as indices with end = length. -/
def listInsertAt (s : List Int) (i : Nat) (val : Int) : List Int :=
  s.take i ++ val :: s.drop i

/-- TreeSet.find from the source: tree find, then a strong equality
check; the end iterator (the list length) when absent. -/
def TreeSet.find (cmp : Cmp) (s : List Int) (val : Int) : Nat :=
  match treeFind cmp s val with
  | none => s.length
  | some n => if stdEq (s.getD n 0) val then n else s.length

/-- Modelled from the spec: membership test of the base set container
(not in the snapshot), via find. -/
def TreeSet.has (cmp : Cmp) (s : List Int) (val : Int) : Bool :=
  TreeSet.find cmp s val != s.length

/-- TreeSet.lower_bound from the source: delegates to the tree lower
bound. -/
def TreeSet.lower_bound (cmp : Cmp) (s : List Int) (val : Int) : Nat :=
  treeLowerBound cmp s val

/-- TreeSet.upper_bound from the source: delegates to the tree LOWER
bound (exports.ts line 269). -/
def TreeSet.upper_bound (cmp : Cmp) (s : List Int) (val : Int) : Nat :=
  treeLowerBound cmp s val

/-- TreeSet.equal_range from the source: delegates to the tree
equal_range. -/
def TreeSet.equal_range (cmp : Cmp) (s : List Int) (val : Int) : Nat × Nat :=
  treeEqualRange cmp s val

/-- TreeSet.insert_by_val from the source.  Returns the new element
list, the iterator index and the inserted flag.  Note: the duplicate
test is std.equal_to and the placement test is the default std.less,
not the comparator of the tree. -/
def TreeSet.insert_by_val (cmp : Cmp) (s : List Int) (val : Int) :
    List Int × Nat × Bool :=
  match treeFind cmp s val with
  | some n =>
    if stdEq (s.getD n 0) val then (s, n, false)
    else
      let it := if stdLess (s.getD n 0) val then n + 1 else n
      (listInsertAt s it val, it, true)
  | none =>
      (listInsertAt s s.length val, s.length, true)

/-- TreeSet.insert_by_hint from the source.  When the key is already
present the end iterator is returned; when the hint is validated the
value is inserted before the cell of the hint itself. -/
def TreeSet.insert_by_hint (cmp : Cmp) (s : List Int) (hint : Nat) (val : Int) :
    List Int × Nat :=
  if TreeSet.has cmp s val then (s, s.length)
  else if cmp (s.getD hint 0) val
      && (hint + 1 == s.length || cmp val (s.getD (hint + 1) 0)) then
    (listInsertAt s hint val, hint)
  else
    let r := TreeSet.insert_by_val cmp s val
    (r.1, r.2.1)

/-- TreeMultiSet.find from the source. -/
def TreeMultiSet.find (cmp : Cmp) (s : List Int) (val : Int) : Nat :=
  match treeFind cmp s val with
  | none => s.length
  | some n => if stdEq val (s.getD n 0) then n else s.length

/-- TreeMultiSet.count from the source: walk forward from find while
strongly equal. -/
def TreeMultiSet.count (cmp : Cmp) (s : List Int) (val : Int) : Nat :=
  ((s.drop (TreeMultiSet.find cmp s val)).takeWhile (fun e => stdEq e val)).length

/-- TreeMultiSet.lower_bound from the source: delegates to the tree
lower bound. -/
def TreeMultiSet.lower_bound (cmp : Cmp) (s : List Int) (val : Int) : Nat :=
  treeLowerBound cmp s val

/-- TreeMultiSet.upper_bound from the source: delegates to the tree
upper bound. -/
def TreeMultiSet.upper_bound (cmp : Cmp) (s : List Int) (val : Int) : Nat :=
  treeUpperBound cmp s val

/-- TreeMultiSet.equal_range from the source: delegates to the tree
equal_range. -/
def TreeMultiSet.equal_range (cmp : Cmp) (s : List Int) (val : Int) : Nat × Nat :=
  treeEqualRange cmp s val

/-- TreeMultiSet.insert_by_val from the source: tree find, branch on
std.equal_to and on the default std.less, scan forward while the
default std.less holds, insert before the computed position. -/
def TreeMultiSet.insert_by_val (cmp : Cmp) (s : List Int) (val : Int) :
    List Int × Nat :=
  let it :=
    match treeFind cmp s val with
    | none => s.length
    | some n =>
      if stdEq (s.getD n 0) val then n + 1
      else if stdLess (s.getD n 0) val then
        (n + 1) + ((s.drop (n + 1)).takeWhile (fun e => stdLess e val)).length
      else n
  (listInsertAt s it val, it)

/-- TreeMultiSet.insert_by_range from the source: insert_by_val over
each element of the input sequence in order. -/
def TreeMultiSet.insert_by_range (cmp : Cmp) (s : List Int) (vals : List Int) :
    List Int :=
  vals.foldl (fun acc v => (TreeMultiSet.insert_by_val cmp acc v).1) s

/-- A container state keeping the element list and the in-order walk
of the tree index separately.  A cell is a pair (identity, value); the
fresh counter supplies identities. -/
structure SetCells where
  data : List (Nat × Int)
  tree : List (Nat × Int)
  fresh : Nat

/-- The empty container. -/
def SetCells.empty : SetCells := ⟨[], [], 0⟩

/-- Modelled from the spec: tree insert of an already placed cell,
keyed by the comparator (textbook binary search tree insertion, equal
keys descending to the right), given as a position in the in-order
walk. -/
def treeNodeInsert (cmp : Cmp) (t : List (Nat × Int)) (c : Nat × Int) :
    List (Nat × Int) :=
  let i := (t.takeWhile (fun e => !(cmp c.2 e.2))).length
  t.take i ++ c :: t.drop i

/-- Modelled from the spec: tree erase unlinks the node holding the
given cell; a cell absent from the tree is left alone. -/
def treeNodeErase (t : List (Nat × Int)) (id : Nat) : List (Nat × Int) :=
  t.eraseP (fun e => e.1 == id)

/-- TreeSet.insert_by_val from the source, on the two-structure state:
the list receives the new cell at the computed position and the
post-process hook handle_insert places its node in the tree. -/
def SetCells.insert_by_val (cmp : Cmp) (c : SetCells) (val : Int) : SetCells :=
  match c.tree.find? (fun e => !(cmp e.2 val)) with
  | some cell =>
    if stdEq cell.2 val then c
    else
      let p := c.data.findIdx (fun e => e.1 == cell.1)
      let it := if stdLess cell.2 val then p + 1 else p
      let newCell := (c.fresh, val)
      ⟨c.data.take it ++ newCell :: c.data.drop it,
       treeNodeInsert cmp c.tree newCell, c.fresh + 1⟩
  | none =>
      let newCell := (c.fresh, val)
      ⟨c.data ++ [newCell], treeNodeInsert cmp c.tree newCell, c.fresh + 1⟩

/-- TreeSet.handle_erase from the source (exports.ts lines 375 to 379):
the loop runs once per cell of the erased range, but each pass erases
the cell of the LAST iterator from the tree. -/
def SetCells.handle_erase (tree : List (Nat × Int)) (rng : List (Nat × Int))
    (lastCell : Nat × Int) : List (Nat × Int) :=
  rng.foldl (fun t _ => treeNodeErase t lastCell.1) tree

/-- Modelled from the spec: erase of the range [first, last) on the
base set container (not in the snapshot): the cells of the range leave
the element list, then the post-process hook handle_erase(first, last)
runs.  The positions are list indices and last must denote a real cell
of the list. -/
def SetCells.erase_range (c : SetCells) (first last : Nat) : SetCells :=
  let rng := (c.data.drop first).take (last - first)
  let lastCell := c.data.getD last (0, 0)
  ⟨c.data.take first ++ c.data.drop last,
   SetCells.handle_erase c.tree rng lastCell, c.fresh⟩

/-- The error kind thrown by the vector accessors. -/
inductive STLError where
  | outOfRange

/-- Whether a call succeeded. -/
def isOkE {ε β : Type} : Except ε β → Bool
  | Except.ok _ => true
  | Except.error _ => false

/-- Reading this[i] on the backing array of the vector: the element
for 0 ≤ i < length, the undefined value (none) otherwise. -/
def jsGet (v : List Int) (i : Int) : Option Int :=
  if 0 ≤ i then v[i.toNat]? else none

/-- Writing this[i] = x on the backing array inside Vector.set: an in
bounds write replaces the element, the write at index length appends
(the length grows by one), a negative index writes a property outside
the element sequence and leaves the elements alone.  Indices beyond
length are unreachable behind the guard of Vector.set. -/
def jsSet (v : List Int) (i : Int) (x : Int) : List Int :=
  if i < 0 then v
  else if i.toNat < v.length then v.set i.toNat x
  else if i.toNat == v.length then v ++ [x]
  else v

/-- Vector.at from the source: guard index < size, then read the
backing array. -/
def StdVector.at (v : List Int) (i : Int) : Except STLError (Option Int) :=
  if i < (v.length : Int) then Except.ok (jsGet v i)
  else Except.error STLError.outOfRange

/-- Vector.front from the source: at(0). -/
def StdVector.front (v : List Int) : Except STLError (Option Int) :=
  StdVector.at v 0

/-- Vector.back from the source: at(length - 1). -/
def StdVector.back (v : List Int) : Except STLError (Option Int) :=
  StdVector.at v ((v.length : Int) - 1)

/-- Vector.set from the source: guard index > size, read the previous
occupant, write the new value, return the previous occupant. -/
def StdVector.set (v : List Int) (i : Int) (x : Int) :
    Except STLError (List Int × Option Int) :=
  if (v.length : Int) < i then Except.error STLError.outOfRange
  else Except.ok (jsSet v i x, jsGet v i)

/-- Vector.begin from the source: the end iterator (index -1) when
empty, else index 0. -/
def StdVector.beginIdx (v : List Int) : Int :=
  if v.length == 0 then -1 else 0

/-- Vector.erase_by_range from the source: nothing when first is end,
splice away the whole tail when last is end, else splice out the
middle segment. -/
def StdVector.erase_by_range (v : List Int) (first last : Int) : List Int :=
  if first == -1 then v
  else if last == -1 then v.take first.toNat
  else v.take first.toNat ++ v.drop last.toNat

/-- Vector.clear from the source: erase(begin, end). -/
def StdVector.clear (v : List Int) : List Int :=
  StdVector.erase_by_range v (StdVector.beginIdx v) (-1)

/-- Vector.insert_by_range at position end from the source: push each
element of the input range in order. -/
def StdVector.insert_end_range (v src : List Int) : List Int :=
  src.foldl (fun acc e => acc ++ [e]) v

/-- Vector.assign from the source: clear, then insert the range at
end. -/
def StdVector.assign (v src : List Int) : List Int :=
  StdVector.insert_end_range (StdVector.clear v) src

/-- Vector.swap from the source: copy-construct a supplement from this
vector, assign the other into this, assign the supplement into the
other. -/
def StdVector.swap (a b : List Int) : List Int × List Int :=
  (StdVector.assign a b, StdVector.assign b (StdVector.assign [] a))

/-- A tree set as seen by swap: the element list plus the comparator
state held inside the tree object. -/
structure TreeSetState where
  cmp : Cmp
  elems : List Int

/-- TreeSet.swap_tree_set from the source: exchange the data_ and
tree_ fields of the two containers. -/
def TreeSet.swap_tree_set (a b : TreeSetState) : TreeSetState × TreeSetState :=
  (⟨b.cmp, b.elems⟩, ⟨a.cmp, a.elems⟩)

theorem foldl_push_eq (src : List Int) :
    ∀ acc : List Int, src.foldl (fun acc e => acc ++ [e]) acc = acc ++ src := by
  induction src with
  | nil => intro acc; simp
  | cons x xs ih =>
    intro acc
    simp only [List.foldl_cons]
    rw [ih]
    simp

theorem clear_eq_nil (v : List Int) : StdVector.clear v = [] := by
  cases v with
  | nil => rfl
  | cons x xs => rfl

theorem assign_eq (v src : List Int) : StdVector.assign v src = src := by
  unfold StdVector.assign StdVector.insert_end_range
  rw [clear_eq_nil, foldl_push_eq]
  simp

/-- C1: for a unique tree set insert_by_val must detect duplicates by
comparator equivalence.  The code tests std.equal_to instead: with the
absolute-value comparator the set [1] already holds an element
equivalent to -1 (neither compares less than the other), yet
insert_by_val inserts -1 and returns the inserted flag true, leaving
two equivalent elements in the container. -/
theorem c1_insert_uses_strong_equality :
    cmpAbs 1 (-1) = false ∧ cmpAbs (-1) 1 = false
    ∧ TreeSet.insert_by_val cmpAbs [1] (-1) = ([-1, 1], 0, true) := by
  decide

/-- C2: upper_bound must return the smallest element strictly greater
than the key.  On the set [1, 2] with key 1 the TreeSet code returns
index 0, whose element 1 is not strictly greater than 1, because it
delegates to the tree lower bound; the TreeMultiSet code returns index
1 (element 2) as required. -/
theorem c2_upper_bound_delegates_to_lower_bound :
    TreeSet.upper_bound stdLess [1, 2] 1 = 0
    ∧ stdLess 1 1 = false
    ∧ TreeMultiSet.upper_bound stdLess [1, 2] 1 = 1 := by
  decide

/-- C3: after inserting 1 and 2 and erasing the range holding the
single cell of value 1, the element list holds exactly the cell of
value 2 while the in-order walk of the tree still holds the cell of
value 1: handle_erase removed the cell of the last iterator from the
tree instead of the erased cell, so the two walks differ. -/
theorem c3_tree_walk_diverges_from_list_after_erase :
    (let c := ((SetCells.empty.insert_by_val stdLess 1).insert_by_val
        stdLess 2).erase_range 0 1
     c.data = [(1, 2)] ∧ c.tree = [(0, 1)]
       ∧ c.data.map Prod.fst ≠ c.tree.map Prod.fst) := by
  decide

/-- C4: inserting [2, 2, 1, 2, 3] into an empty multiset does yield
the forward sequence [1, 2, 2, 2, 3] with count(2) = 3, but insertion
is not stable: with the absolute-value comparator, inserting 2 and
then -2 (equivalent elements, neither less than the other) yields
[-2, 2], the reverse of the insertion order. -/
theorem c4_multiset_sorted_but_not_stable :
    TreeMultiSet.insert_by_range stdLess [] [2, 2, 1, 2, 3] = [1, 2, 2, 2, 3]
    ∧ TreeMultiSet.count stdLess [1, 2, 2, 2, 3] 2 = 3
    ∧ TreeMultiSet.insert_by_range cmpAbs [] [2, -2] = [-2, 2]
    ∧ cmpAbs 2 (-2) = false ∧ cmpAbs (-2) 2 = false := by
  decide

/-- C5: on the set [1, 3] with the hint at the cell of 1 and value 2
the hint is valid (1 is less than 2, 2 is less than the next element
3), so the claim requires the new cell immediately after the cell of
the hint: [1, 2, 3] at index 1.  The code inserts before the cell of
the hint instead, producing [2, 1, 3] at index 0 and breaking the
sorted order, while the plain insert of the same value produces
[1, 2, 3] at index 1. -/
theorem c5_hint_insert_places_before_hint :
    TreeSet.insert_by_hint stdLess [1, 3] 0 2 = ([2, 1, 3], 0)
    ∧ stdLess 1 2 = true ∧ stdLess 2 3 = true
    ∧ TreeSet.insert_by_val stdLess [1, 3] 2 = ([1, 2, 3], 1, true) := by
  decide

/-- C6: inserting 5 with any hint into the set [5], which already
holds an equivalent element at index 0, must return the iterator of
that element.  The code returns index 1, the end iterator of the one
element list. -/
theorem c6_hint_insert_of_duplicate_returns_end :
    TreeSet.insert_by_hint stdLess [5] 0 5 = ([5], 1)
    ∧ TreeSet.find stdLess [5] 5 = 0
    ∧ ([5] : List Int).length = 1 := by
  decide

/-- C7: on the set [1, 2] with key 1, equal_range returns (0, 1); the
public lower_bound agrees with the first component but the public
upper_bound returns 0, not the second component 1, because it
delegates to the tree lower bound. -/
theorem c7_equal_range_disagrees_with_public_upper_bound :
    TreeSet.equal_range stdLess [1, 2] 1 = (0, 1)
    ∧ TreeSet.lower_bound stdLess [1, 2] 1 = 0
    ∧ TreeSet.upper_bound stdLess [1, 2] 1 = 0
    ∧ (TreeSet.equal_range stdLess [1, 2] 1).2
        ≠ TreeSet.upper_bound stdLess [1, 2] 1 := by
  decide

/-- C8 counterexample: back() on the empty vector does not fail; it
returns the undefined value, because at(-1) passes the guard
index < size.  Likewise at(-1) on a nonempty vector returns the
undefined value without failing although -1 is not the index of any
element. -/
theorem c8_counterexample_negative_index_does_not_fail :
    StdVector.back ([] : List Int) = Except.ok none
    ∧ isOkE (StdVector.back ([] : List Int)) = true
    ∧ StdVector.at [7] (-1) = Except.ok none := by
  exact ⟨rfl, rfl, rfl⟩

/-- C8 amended: at(i) fails with the out-of-range error exactly when
i is at least the size; for 0 ≤ i < size it returns the element; a
negative index does not fail and reads the undefined value.  front()
fails exactly on the empty vector.  back() never fails: on the empty
vector it returns the undefined value.  These accessors read only, so
the contents are unchanged in every case. -/
theorem c8_at_front_back_amended (v : List Int) (i : Int) :
    (isOkE (StdVector.at v i) = true ↔ i < (v.length : Int))
    ∧ (0 ≤ i → i < (v.length : Int) →
        StdVector.at v i = Except.ok v[i.toNat]?)
    ∧ (isOkE (StdVector.front v) = true ↔ v ≠ [])
    ∧ isOkE (StdVector.back v) = true := by
  refine ⟨?_, ?_, ?_, ?_⟩
  · by_cases h : i < (v.length : Int)
    · simp [StdVector.at, h, isOkE]
    · simp [StdVector.at, h, isOkE]
  · intro h0 h1
    simp [StdVector.at, h1, jsGet, h0]
  · by_cases h : v = []
    · subst h
      simp [StdVector.front, StdVector.at, isOkE]
    · have hl : 0 < (v.length : Int) := by
        have := List.length_pos.mpr h
        omega
      simp [StdVector.front, StdVector.at, hl, isOkE, h]
  · have h : (v.length : Int) - 1 < (v.length : Int) := by omega
    simp [StdVector.back, StdVector.at, h, isOkE]

/-- C8 witness: the amended statement applied to the vector [7] at
index 0. -/
theorem c8_at_front_back_amended_witness :
    StdVector.at [7] 0 = Except.ok (some 7) :=
  (c8_at_front_back_amended [7] 0).2.1 (by decide) (by decide)

/-- C9: swap exchanges the contents of two containers of the same
concrete type: the vector swap leaves each vector with the former
elements of the other, the tree-set swap exchanges the element list
and the tree object (hence the comparator state), and on the concrete
pair [1, 2, 3] and [10, 20] the vectors end as [10, 20] and
[1, 2, 3]. -/
theorem c9_swap_exchanges_contents :
    (∀ a b : List Int, StdVector.swap a b = (b, a))
    ∧ (∀ a b : TreeSetState, TreeSet.swap_tree_set a b = (b, a))
    ∧ StdVector.swap [1, 2, 3] [10, 20] = ([10, 20], [1, 2, 3]) := by
  refine ⟨?_, ?_, ?_⟩
  · intro a b
    simp [StdVector.swap, assign_eq]
  · intro a b
    rfl
  · simp [StdVector.swap, assign_eq]

/-- C10: set(i, x) fails with the out-of-range error exactly when
i exceeds the size; the boundary call at i = size does not fail, it
appends x (the size grows by one) and returns the undefined previous
occupant; an in-bounds call replaces the element and returns its
previous value. -/
theorem c10_set_boundary_grows (v : List Int) (i x : Int) :
    (isOkE (StdVector.set v i x) = false ↔ (v.length : Int) < i)
    ∧ StdVector.set v (v.length : Int) x = Except.ok (v ++ [x], none)
    ∧ (0 ≤ i → i < (v.length : Int) →
        StdVector.set v i x = Except.ok (v.set i.toNat x, v[i.toNat]?)) := by
  refine ⟨?_, ?_, ?_⟩
  · by_cases h : (v.length : Int) < i
    · simp [StdVector.set, h, isOkE]
    · simp [StdVector.set, h, isOkE]
  · have h1 : ¬ ((v.length : Int) < (v.length : Int)) := by omega
    have h2 : ¬ ((v.length : Int) < 0) := by omega
    have h3 : ((v.length : Int)).toNat = v.length := by omega
    simp [StdVector.set, jsSet, jsGet, h1, h2, h3]
  · intro h0 h1
    have h2 : ¬ ((v.length : Int) < i) := by omega
    have h3 : i.toNat < v.length := by omega
    have h4 : ¬ (i < 0) := by omega
    simp [StdVector.set, jsSet, jsGet, h2, h3, h4, h0]

/-- C10 witness: the statement applied to the vector [5] at the
boundary index 1 with value 9. -/
theorem c10_set_boundary_grows_witness :
    StdVector.set [5] 1 9 = Except.ok ([5, 9], none) :=
  (c10_set_boundary_grows [5] 1 9).2.1
